import Mathlib

/-!
Verification of the prss feed reader (`src/main.rs`) against its
natural-language specification.

Shallow embedding conventions:
* Rust `DateTime<Utc>` / `SystemTime` values are modelled as `Int`
  timestamps; only their ordering matters to the program logic.
* Raw byte payloads are `List Nat`.
* The external wire-format decoders (`atom_syndication`, `rss`) and the
  RFC 2822 date parser (`chrono`) are black boxes per the spec; they are
  modelled as function parameters bundled in `Decoders`, with their output
  record types (`AtomFeedRaw`, `RssChannelRaw`, ...) carrying exactly the
  fields `read_feed` consumes.
* Rust panics (`unwrap`, `unwrap_or_else(panic!)`) are modelled by an
  explicit `panicked` constructor, distinct from a returned `Result` error.
* File-system and network I/O is modelled by explicit inputs: the cache
  lookup and the HEAD header arrive as `Except String` values mirroring the
  two `Result` values the Rust `match` in `get_feed_entries` scrutinises.
-/

namespace Prss

/-- Timestamps: `DateTime<Utc>` / `SystemTime`, ordered. -/
abbrev Timestamp := Int

/-- Raw byte payload. -/
abbrev Bytes := List Nat

/-- Rust `struct FeedEntry` from `main.rs`. -/
structure FeedEntry where
  title : String
  url : String
  date : Timestamp
  deriving Repr, DecidableEq

/-- Rust `struct Feed` from `main.rs`. -/
structure Feed where
  title : String
  entries : List FeedEntry
  deriving Repr, DecidableEq

/-- Rust `struct FeedListEntry` from `main.rs`. -/
structure FeedListEntry where
  title : String
  url : String
  date : Timestamp
  deriving Repr, DecidableEq

/-- Method `Feed::list_entries`: formats each entry title as the entry
title followed by the feed title in parentheses. -/
def Feed.list_entries (f : Feed) : List FeedListEntry :=
  f.entries.map (fun e =>
    { title := e.title ++ " (" ++ f.title ++ ")", url := e.url, date := e.date })

/-- Rust `struct FeedList` from `main.rs`: the item vector plus the
`tui::ListState` selection (`selected : Option<usize>`). -/
structure FeedList where
  items : List FeedListEntry
  selected : Option Nat
  deriving Repr, DecidableEq

/-- Constructor `FeedList::new`: concatenate the display entries of all
feeds, sort ascending
by date (`sort_by_key(|x| x.date)`), reverse, and select index 0 when the
result is non-empty (otherwise the `ListState` default, no selection). -/
def FeedList.new (feeds : List Feed) : FeedList :=
  let items := (feeds.map Feed.list_entries).flatten
  let items := (items.mergeSort (fun a b => decide (a.date ≤ b.date))).reverse
  { items, selected := if items.isEmpty then none else some 0 }

/-- Method `FeedList::next`. The Rust `self.items.len() - 1` is `usize`
subtraction; with a selection present the invariant `i < items.length`
keeps `items.length ≥ 1`, so Nat truncated subtraction agrees with it. -/
def FeedList.next (fl : FeedList) : FeedList :=
  let i := match fl.selected with
    | some i => if i ≥ fl.items.length - 1 then 0 else i + 1
    | none => 0
  { fl with selected := some i }

/-- Method `FeedList::previous`. -/
def FeedList.previous (fl : FeedList) : FeedList :=
  let i := match fl.selected with
    | some i => if i = 0 then fl.items.length - 1 else i - 1
    | none => 0
  { fl with selected := some i }

/-- The `SelectionState` invariant from the spec:
`0 ≤ cursor < length` whenever `length > 0` (and, as realised by
`FeedList::new`, a non-empty list always has a selection). -/
def FeedList.Inv (fl : FeedList) : Prop :=
  ∀ i, fl.selected = some i → i < fl.items.length

/-- A computation that either yields a value or aborts the whole process
with a Rust panic message. Distinct from a returned `Result` error. -/
inductive Panic (α : Type) where
  | ok : α → Panic α
  | panicked : String → Panic α
  deriving Repr, DecidableEq

/-- Model of `.iter().map(f).collect()` where `f` may panic: the first panic aborts
the whole collection. -/
def panicCollect (f : α → Panic β) : List α → Panic (List β)
  | [] => .ok []
  | x :: xs =>
    match f x with
    | .panicked m => .panicked m
    | .ok y =>
      match panicCollect f xs with
      | .panicked m => .panicked m
      | .ok ys => .ok (y :: ys)

/-- The Rust standard-library message of `Option::unwrap()` on `None`. -/
def unwrapNoneMsg : String := "called `Option::unwrap()` on a `None` value"

/-- An `atom_syndication` entry, restricted to the fields `read_feed` reads:
`title()`, the `href`s of `links()`, and `published`. -/
structure AtomEntryRaw where
  title : String
  links : List String
  published : Option Timestamp
  deriving Repr, DecidableEq

/-- An `atom_syndication::Feed`, restricted to `title()` and `entries`. -/
structure AtomFeedRaw where
  title : String
  entries : List AtomEntryRaw
  deriving Repr, DecidableEq

/-- An `rss::Item`, restricted to `title()`, `link()` and `pub_date`. -/
structure RssItemRaw where
  title : Option String
  link : Option String
  pub_date : Option String
  deriving Repr, DecidableEq

/-- An `rss::Channel`, restricted to `title` and `items`. -/
structure RssChannelRaw where
  title : String
  items : List RssItemRaw
  deriving Repr, DecidableEq

/-- The external black-box parsers consumed by `read_feed`:
`atom_syndication::Feed::read_from`, `rss::Channel::read_from`
(`Result` success modelled as `some`), and
`chrono::DateTime::parse_from_rfc2822` (`.ok()` modelled as `Option`). -/
structure Decoders where
  atomRead : Bytes → Option AtomFeedRaw
  rssRead : Bytes → Option RssChannelRaw
  parseRfc2822 : String → Option Timestamp

/-- One atom entry mapped to a `FeedEntry`, in Rust field-initialiser
order: `title`, then `url` (`e.links().first().unwrap()` — panics when the
entry has no link), then `date` (`e.published.unwrap()` — panics when
there is no published date). -/
def atomEntryToFeedEntry (e : AtomEntryRaw) : Panic FeedEntry :=
  match e.links.head? with
  | none => .panicked unwrapNoneMsg
  | some url =>
    match e.published with
    | none => .panicked unwrapNoneMsg
    | some d => .ok { title := e.title, url := url, date := d }

/-- The panic message of the `unwrap_or_else` closure on an unparsable
`pub_date` (the Rust code re-replaces "UTC" by "GMT" in the message). -/
def pubDatePanicMsg (t url : String) (pub_date : Option String) : String :=
  "title: " ++ t ++ ", url: " ++ url ++ ": couldn\x27t parse i.pub_date " ++
    (match pub_date.map (fun x => x.replace "UTC" "GMT") with
     | none => "None"
     | some s => "Some(\"" ++ s ++ "\")")

/-- One rss item mapped to a `FeedEntry`, in Rust field-initialiser order:
`title` (`i.title().unwrap_or("")` — never panics), then `url`
(`i.link().unwrap()` — panics when the item has no link), then `date`:
`i.pub_date` run through `parse_from_rfc2822` after replacing "UTC" with
"+0000", panicking when the date is absent or still unparsable. -/
def rssItemToFeedEntry (parse : String → Option Timestamp) (t url : String)
    (i : RssItemRaw) : Panic FeedEntry :=
  let title := i.title.getD ""
  match i.link with
  | none => .panicked unwrapNoneMsg
  | some link =>
    match i.pub_date.bind (fun d => parse (d.replace "UTC" "+0000")) with
    | some date => .ok { title := title, url := link, date := date }
    | none => .panicked (pubDatePanicMsg t url i.pub_date)

/-- Result of `read_feed`: a returned `Ok`, a returned `Err` (`bail!`), or
a process-aborting panic raised while mapping the entries. -/
inductive ReadFeedResult where
  | ok : Feed → ReadFeedResult
  | err : String → ReadFeedResult
  | panicked : String → ReadFeedResult
  deriving Repr, DecidableEq

/-- The atom branch of `read_feed`. -/
def atomBranch (feed : AtomFeedRaw) : ReadFeedResult :=
  match panicCollect atomEntryToFeedEntry feed.entries with
  | .ok es => .ok { title := feed.title, entries := es }
  | .panicked m => .panicked m

/-- The rss branch of `read_feed`. -/
def rssBranch (parse : String → Option Timestamp) (url : String)
    (channel : RssChannelRaw) : ReadFeedResult :=
  match panicCollect (rssItemToFeedEntry parse channel.title url) channel.items with
  | .ok es => .ok { title := channel.title, entries := es }
  | .panicked m => .panicked m

/-- Function `read_feed`: try the atom decoder; if it fails, try the rss decoder;
if both fail, `bail!` with a message naming the url. -/
def read_feed (dec : Decoders) (url : String) (content : Bytes) : ReadFeedResult :=
  match dec.atomRead content with
  | some feed => atomBranch feed
  | none =>
    match dec.rssRead content with
    | some channel => rssBranch dec.parseRfc2822 url channel
    | none => .err ("Couldn\x27t read Atom or RSS from url: " ++ url)

/-- The I/O inputs of one `get_feed_entries` run, after the HEAD request
itself has succeeded (a failed HEAD propagates with `?` before the match):
* `cacheLoad` — the chain `find_cache_file` / `metadata` / `modified`,
  yielding the cache file (its bytes, read later by `File::open` +
  `read_to_end`) and its local modification time; any missing link of the
  chain is the `Err` case.
* `headLastModified` — the chain `headers().get(LAST_MODIFIED)` /
  `to_str` / `parse_from_rfc2822` on the HEAD response; a missing or
  unparsable header is the `Err` case.
* `freshBody` — the bytes `reqwest::get(url).bytes()` would return on a
  fresh fetch. -/
structure FetchEnv where
  cacheLoad : Except String (Bytes × Timestamp)
  headLastModified : Except String Timestamp
  freshBody : Bytes

/-- Observable result of one `get_feed_entries` run: the decode result,
whether the cached payload was reused, and the bytes written to this
cache file of the source (`none` when no write happened). -/
structure FetchStep where
  outcome : ReadFeedResult
  usedCache : Bool
  cacheWrite : Option Bytes
  deriving Repr, DecidableEq

/-- The fresh-fetch arm of `get_feed_entries`: fetch, decode, then persist
the fetched bytes. The cache write follows the `read_feed` call, so a
panic inside `read_feed` prevents it, while an `Err` from `read_feed`
does not. -/
def freshFetch (dec : Decoders) (env : FetchEnv) (url : String) : FetchStep :=
  match read_feed dec url env.freshBody with
  | .panicked m => { outcome := .panicked m, usedCache := false, cacheWrite := none }
  | r => { outcome := r, usedCache := false, cacheWrite := some env.freshBody }

/-- Function `get_feed_entries`: match on the pair (cache lookup, parsed
last-modified header); when both succeed and the file modification time is
`>=` the remote one, decode the cached bytes; in every other case run
`freshFetch`. -/
def get_feed_entries (dec : Decoders) (env : FetchEnv) (url : String) : FetchStep :=
  match env.cacheLoad, env.headLastModified with
  | .ok (bytes, file_last_modified), .ok url_last_modified =>
    if file_last_modified ≥ url_last_modified then
      { outcome := read_feed dec url bytes, usedCache := true, cacheWrite := none }
    else
      freshFetch dec env url
  | _, _ => freshFetch dec env url

/-- Model of `fetches.into_iter().collect::<Result<Vec<Feed>>>()` in `main`: stops
at the first per-source failure, otherwise yields all feeds in order. -/
def collectResults : List (Except String Feed) → Except String (List Feed)
  | [] => .ok []
  | .error e :: _ => .error e
  | .ok f :: rest =>
    match collectResults rest with
    | .error e => .error e
    | .ok fs => .ok (f :: fs)

/-- Function `get_read_entries`: the read-state file modelled as `none` when
`find_cache_file` finds nothing and `some lines` otherwise; a missing file
yields the empty set, an existing one the set of its lines. The `HashSet`
is modelled as a `List` with membership up to duplicates. -/
def get_read_entries (file : Option (List String)) : List String :=
  match file with
  | some lines => lines
  | none => []

/-- The in-session read state: the in-memory `HashSet` plus the on-disk
`read_entries.txt` (`none` when the file does not exist yet). -/
structure ReadState where
  mem : List String
  file : Option (List String)
  deriving Repr, DecidableEq

/-- The mark-read key arm (`Key::Char` with the letter r) of the interactive loop:
`read_entries.insert(url)` then append `url` as a new line to
`read_entries.txt`, creating the file when it is missing. -/
def markRead (url : String) (s : ReadState) : ReadState :=
  { mem := url :: s.mem, file := some (s.file.getD [] ++ [url]) }

/-- Query `read_entries.contains(&url)`: the render filter and the session query. -/
def isRead (url : String) (s : ReadState) : Bool :=
  s.mem.contains url

end Prss

namespace Prss

theorem inv_some {items : List FeedListEntry} {i : Nat} (h : i < items.length) :
    FeedList.Inv { items := items, selected := some i } := by
  intro j hj
  injection hj with hj
  exact hj ▸ h

/-- With a valid selection, `next` moves the cursor to `(i+1) mod length`. -/
theorem next_selected (items : List FeedListEntry) (i : Nat) (hi : i < items.length) :
    FeedList.next { items := items, selected := some i } =
      { items := items, selected := some ((i + 1) % items.length) } := by
  simp only [FeedList.next]
  by_cases h : i ≥ items.length - 1
  · have he : i + 1 = items.length := by omega
    simp [h, he]
  · have hlt : i + 1 < items.length := by omega
    simp [h, Nat.mod_eq_of_lt hlt]

/-- With a valid selection, `previous` moves the cursor to
`(i + length - 1) mod length`. -/
theorem previous_selected (items : List FeedListEntry) (i : Nat) (hi : i < items.length) :
    FeedList.previous { items := items, selected := some i } =
      { items := items, selected := some ((i + (items.length - 1)) % items.length) } := by
  simp only [FeedList.previous]
  by_cases h : i = 0
  · have hlt : items.length - 1 < items.length := by omega
    simp [h, Nat.mod_eq_of_lt hlt]
  · have he : i + (items.length - 1) = (i - 1) + items.length := by omega
    have hlt : i - 1 < items.length := by omega
    simp [h, he, Nat.add_mod_right, Nat.mod_eq_of_lt hlt]

/-- Iterating `next` `k` times from a valid cursor `i` lands on
`(i + k) mod length`. -/
theorem next_iterate (items : List FeedListEntry) (i : Nat) (hi : i < items.length)
    (k : Nat) :
    FeedList.next^[k] { items := items, selected := some i } =
      { items := items, selected := some ((i + k) % items.length) } := by
  induction k with
  | zero => simp [Nat.mod_eq_of_lt hi]
  | succ k ih =>
    rw [Function.iterate_succ_apply', ih]
    have hmod : (i + k) % items.length < items.length := Nat.mod_lt _ (by omega)
    rw [next_selected items ((i + k) % items.length) hmod, Nat.mod_add_mod,
      Nat.add_assoc]

/-- A sample display entry for concrete evaluations. -/
def sampleEntry : FeedListEntry := { title := "a", url := "u", date := 0 }

/-- A sample two-element list with the cursor on the second item. -/
def sampleList : FeedList := { items := [sampleEntry, sampleEntry], selected := some 1 }

/-- C9: on a list with a valid cursor (so length ≥ 1), `next` applied
`length` times returns the list (cursor included) to its starting state,
and `next` then `previous` — equally `previous` then `next` — is the
identity. -/
theorem C9_nav_cycle (fl : FeedList) (i : Nat)
    (hs : fl.selected = some i) (hi : i < fl.items.length) :
    FeedList.next^[fl.items.length] fl = fl ∧
    fl.next.previous = fl ∧ fl.previous.next = fl := by
  obtain ⟨items, sel⟩ := fl
  dsimp only at hs hi ⊢
  subst hs
  have hlen : 0 < items.length := by omega
  refine ⟨?_, ?_, ?_⟩
  · rw [next_iterate items i hi items.length, Nat.add_mod_right, Nat.mod_eq_of_lt hi]
  · rw [next_selected items i hi,
      previous_selected items ((i + 1) % items.length) (Nat.mod_lt _ hlen)]
    have hc : ((i + 1) % items.length + (items.length - 1)) % items.length = i := by
      rw [Nat.mod_add_mod]
      have he : i + 1 + (items.length - 1) = i + items.length := by omega
      rw [he, Nat.add_mod_right, Nat.mod_eq_of_lt hi]
    rw [hc]
  · rw [previous_selected items i hi,
      next_selected items ((i + (items.length - 1)) % items.length) (Nat.mod_lt _ hlen)]
    have hc : ((i + (items.length - 1)) % items.length + 1) % items.length = i := by
      rw [Nat.mod_add_mod]
      have he : i + (items.length - 1) + 1 = i + items.length := by omega
      rw [he, Nat.add_mod_right, Nat.mod_eq_of_lt hi]
    rw [hc]

/-- C9 witness: the cycle laws evaluated on a concrete two-element list. -/
theorem C9_nav_cycle_witness :
    FeedList.next^[sampleList.items.length] sampleList = sampleList ∧
    sampleList.next.previous = sampleList ∧ sampleList.previous.next = sampleList :=
  C9_nav_cycle sampleList 1 rfl (by decide)

/-- C3 counterexample: on the empty list (no selection), `next` is not a
no-op — it sets the cursor to `Some(0)`. -/
theorem C3_counterexample :
    FeedList.next { items := [], selected := none } ≠
      ({ items := [], selected := none } : FeedList) := by
  decide

/-- C3 amended: `FeedList::new` establishes the invariant; on a non-empty
list, `next` and `previous` preserve the invariant and leave the items
unchanged; but on a list in the no-selection state they are not no-ops:
both set the cursor to `Some(0)`. -/
theorem C3_invariant (fl : FeedList) (feeds : List Feed) :
    (FeedList.new feeds).Inv ∧
    (0 < fl.items.length → fl.Inv →
      (fl.next.Inv ∧ fl.previous.Inv ∧
        fl.next.items = fl.items ∧ fl.previous.items = fl.items)) ∧
    (fl.selected = none →
      fl.next = { fl with selected := some 0 } ∧
      fl.previous = { fl with selected := some 0 }) := by
  obtain ⟨items, sel⟩ := fl
  refine ⟨?_, ?_, ?_⟩
  · intro i h
    simp only [FeedList.new] at h ⊢
    split at h
    · exact absurd h (by simp)
    · injection h with h
      subst h
      rename_i hne
      simp only [List.isEmpty_eq_true] at hne
      exact List.length_pos.mpr hne
  · intro hlen hinv
    dsimp only at hlen
    refine ⟨?_, ?_, rfl, rfl⟩
    · intro j hj
      cases sel with
      | none =>
        dsimp only [FeedList.next] at hj ⊢
        injection hj with hj
        omega
      | some i =>
        have hi := hinv i rfl
        dsimp only at hi
        dsimp only [FeedList.next] at hj ⊢
        injection hj with hj
        subst hj
        split
        · omega
        · omega
    · intro j hj
      cases sel with
      | none =>
        dsimp only [FeedList.previous] at hj ⊢
        injection hj with hj
        omega
      | some i =>
        have hi := hinv i rfl
        dsimp only at hi
        dsimp only [FeedList.previous] at hj ⊢
        injection hj with hj
        subst hj
        split
        · omega
        · omega
  · intro hs
    dsimp only at hs
    subst hs
    exact ⟨rfl, rfl⟩

/-- C3 amended witness: invariant preservation evaluated on the concrete
two-element list, and the non-no-op behaviour on the empty list. -/
theorem C3_invariant_witness :
    sampleList.next.Inv ∧
    FeedList.next { items := [], selected := none } =
      ({ items := [], selected := some 0 } : FeedList) :=
  ⟨((C3_invariant sampleList []).2.1 (by decide) (inv_some (by decide))).1,
   ((C3_invariant { items := [], selected := none } []).2.2 rfl).1⟩

/-- C4: the aggregated list built by `FeedList::new` (concatenate, sort by
date ascending, reverse) is newest-first: every adjacent pair `(e1, e2)`
satisfies `e1.date ≥ e2.date`. -/
theorem C4_sorted (feeds : List Feed) :
    List.Chain' (fun e1 e2 => e2.date ≤ e1.date) (FeedList.new feeds).items := by
  apply List.Pairwise.chain'
  have hsorted :=
    @List.sorted_mergeSort FeedListEntry (fun a b => decide (a.date ≤ b.date))
      (by
        intro a b c hab hbc
        simp only [decide_eq_true_eq] at *
        exact le_trans hab hbc)
      (by
        intro a b
        simp only [Bool.or_eq_true, decide_eq_true_eq]
        exact Int.le_total _ _)
      ((feeds.map Feed.list_entries).flatten)
  simp only [FeedList.new, List.pairwise_reverse]
  exact hsorted.imp (fun h => by simpa using h)

/-- HEAD-header / cache-lookup environment in which the cached payload is
fresh enough to reuse. -/
def reuseEnv : FetchEnv :=
  { cacheLoad := .ok ([1], 5), headLastModified := .ok 3, freshBody := [2] }

/-- Environment with no usable cache file (the `find_cache_file` /
`metadata` / `modified` chain failed). -/
def noCacheEnv : FetchEnv :=
  { cacheLoad := .error "Cachefile not found", headLastModified := .ok 3,
    freshBody := [2] }

/-- Decoders for which both formats reject every payload. -/
def rejectAllDec : Decoders :=
  { atomRead := fun _ => none, rssRead := fun _ => none,
    parseRfc2822 := fun _ => none }

/-- Evaluation of `get_feed_entries` when cache lookup and header parse
both succeeded and the file is at least as new as the remote: reuse. -/
theorem gfe_reuse (dec : Decoders) (bytes : Bytes) (t r : Timestamp) (fb : Bytes)
    (url : String) (hle : r ≤ t) :
    get_feed_entries dec ⟨.ok (bytes, t), .ok r, fb⟩ url =
      { outcome := read_feed dec url bytes, usedCache := true, cacheWrite := none } := by
  simp [get_feed_entries, hle]

/-- Evaluation of `get_feed_entries` when both succeeded but the file is
strictly older than the remote: fresh fetch. -/
theorem gfe_stale (dec : Decoders) (bytes : Bytes) (t r : Timestamp) (fb : Bytes)
    (url : String) (hlt : ¬ t ≥ r) :
    get_feed_entries dec ⟨.ok (bytes, t), .ok r, fb⟩ url =
      freshFetch dec ⟨.ok (bytes, t), .ok r, fb⟩ url := by
  simp [get_feed_entries, hlt]

/-- Evaluation of `get_feed_entries` when the cache lookup chain failed:
fresh fetch. -/
theorem gfe_nocache (dec : Decoders) (e : String) (hhd : Except String Timestamp)
    (fb : Bytes) (url : String) :
    get_feed_entries dec ⟨.error e, hhd, fb⟩ url =
      freshFetch dec ⟨.error e, hhd, fb⟩ url := by
  cases hhd <;> rfl

/-- Evaluation of `get_feed_entries` when the last-modified header is
missing or unparsable: fresh fetch. -/
theorem gfe_noheader (dec : Decoders) (bytes : Bytes) (t : Timestamp) (e : String)
    (fb : Bytes) (url : String) :
    get_feed_entries dec ⟨.ok (bytes, t), .error e, fb⟩ url =
      freshFetch dec ⟨.ok (bytes, t), .error e, fb⟩ url := rfl

/-- The fresh-fetch arm never reports the cache as used. -/
theorem freshFetch_usedCache (dec : Decoders) (env : FetchEnv) (url : String) :
    (freshFetch dec env url).usedCache = false := by
  unfold freshFetch
  split <;> rfl

/-- C1: `get_feed_entries` reuses the cached payload iff the cache lookup
chain succeeded, the HEAD last-modified header was present and parsable,
and the cache file\x27s modification time is `>=` the remote timestamp; in
that case it decodes the cached bytes, and in every other case it runs the
fresh-fetch arm. -/
theorem C1_freshness (dec : Decoders) (env : FetchEnv) (url : String) :
    ((get_feed_entries dec env url).usedCache = true ↔
      ∃ bytes t r, env.cacheLoad = Except.ok (bytes, t) ∧
        env.headLastModified = Except.ok r ∧ r ≤ t) ∧
    (∀ bytes t r, env.cacheLoad = Except.ok (bytes, t) →
      env.headLastModified = Except.ok r → r ≤ t →
      get_feed_entries dec env url =
        { outcome := read_feed dec url bytes, usedCache := true, cacheWrite := none }) ∧
    ((get_feed_entries dec env url).usedCache = false →
      get_feed_entries dec env url = freshFetch dec env url) := by
  obtain ⟨cl, hhd, fb⟩ := env
  dsimp only
  rcases cl with e | ⟨bytes, t⟩
  · rw [gfe_nocache dec e hhd fb url]
    refine ⟨?_, ?_, fun _ => rfl⟩
    · rw [freshFetch_usedCache]
      simp
    · intro bytes t r hc
      exact absurd hc (by simp)
  · rcases hhd with e | r
    · rw [gfe_noheader dec bytes t e fb url]
      refine ⟨?_, ?_, fun _ => rfl⟩
      · rw [freshFetch_usedCache]
        simp
      · intro bytes2 t2 r2 hc hh
        exact absurd hh (by simp)
    · by_cases hle : t ≥ r
      · rw [gfe_reuse dec bytes t r fb url hle]
        refine ⟨?_, ?_, ?_⟩
        · simp only [true_iff]
          exact ⟨bytes, t, r, rfl, rfl, hle⟩
        · intro bytes2 t2 r2 hc hh hle2
          injection hc with hc
          injection hh with hh
          cases hc
          cases hh
          rfl
        · intro h
          exact absurd h (by simp)
      · rw [gfe_stale dec bytes t r fb url hle]
        refine ⟨?_, ?_, fun _ => rfl⟩
        · rw [freshFetch_usedCache]
          simp only [Bool.false_eq_true, false_iff]
          rintro ⟨bytes2, t2, r2, hc, hh, hle2⟩
          injection hc with hc
          injection hh with hh
          cases hc
          cases hh
          exact hle hle2
        · intro bytes2 t2 r2 hc hh hle2
          injection hc with hc
          injection hh with hh
          cases hc
          cases hh
          exact absurd hle2 hle

/-- C1 witness: with a cache whose modification time 5 is at least the
remote last-modified 3, the cached bytes are decoded and nothing is
written; with no cache file the fresh-fetch arm runs. -/
theorem C1_freshness_witness :
    get_feed_entries rejectAllDec reuseEnv "u" =
      { outcome := read_feed rejectAllDec "u" [1], usedCache := true,
        cacheWrite := none } ∧
    get_feed_entries rejectAllDec noCacheEnv "u" =
      freshFetch rejectAllDec noCacheEnv "u" :=
  ⟨(C1_freshness rejectAllDec reuseEnv "u").2.1 [1] 5 3 rfl rfl (by decide),
   (C1_freshness rejectAllDec noCacheEnv "u").2.2 rfl⟩

/-- C6: whenever the freshness check fails (the fresh-fetch arm runs) and
the decode of the fetched bytes returns — with `Ok` or with `Err`, rather
than panicking — the fetched bytes are written to the cache file of this
source. -/
theorem C6_cache_write (dec : Decoders) (env : FetchEnv) (url : String)
    (hfresh : (get_feed_entries dec env url).usedCache = false)
    (hret : ∀ m, read_feed dec url env.freshBody ≠ ReadFeedResult.panicked m) :
    (get_feed_entries dec env url).cacheWrite = some env.freshBody := by
  have hstep := (C1_freshness dec env url).2.2 hfresh
  rw [hstep]
  unfold freshFetch
  split
  · rename_i m heq
    exact absurd heq (hret m)
  · rfl

/-- C6 witness: with no cache file and bytes both decoders reject, the
decode returns `Err` and the fetched bytes are still written to the
cache. -/
theorem C6_cache_write_witness :
    (get_feed_entries rejectAllDec noCacheEnv "u").cacheWrite = some [2] :=
  C6_cache_write rejectAllDec noCacheEnv "u" rfl
    (fun _ h => ReadFeedResult.noConfusion h)

/-- C7: `read_feed` tries the atom decoder first — when it accepts, the
result is the atom branch whatever the rss decoder would say; when atom
rejects and rss accepts, the result is the rss branch; when both reject,
the result is the returned `bail!` error (not a panic) naming the url in
"Couldn\x27t read Atom or RSS from url". -/
theorem C7_adapter (dec : Decoders) (url : String) (content : Bytes) :
    (∀ f, dec.atomRead content = some f →
      read_feed dec url content = atomBranch f) ∧
    (dec.atomRead content = none → ∀ c, dec.rssRead content = some c →
      read_feed dec url content = rssBranch dec.parseRfc2822 url c) ∧
    (dec.atomRead content = none → dec.rssRead content = none →
      read_feed dec url content =
        ReadFeedResult.err ("Couldn\x27t read Atom or RSS from url: " ++ url)) := by
  refine ⟨?_, ?_, ?_⟩
  · intro f hf
    unfold read_feed
    rw [hf]
  · intro ha c hc
    unfold read_feed
    rw [ha, hc]
  · intro ha hc
    unfold read_feed
    rw [ha, hc]

/-- C7 witness: on decoders that reject every payload, `read_feed`
returns the neither-format error. -/
theorem C7_adapter_witness :
    read_feed rejectAllDec "u" [] =
      ReadFeedResult.err ("Couldn\x27t read Atom or RSS from url: " ++ "u") :=
  (C7_adapter rejectAllDec "u" []).2.2 rfl rfl

/-- A decoder set whose atom decoder yields one entry with no link. -/
def linklessAtomDec : Decoders :=
  { atomRead := fun _ =>
      some { title := "f", entries := [{ title := "e", links := [], published := some 0 }] },
    rssRead := fun _ => none,
    parseRfc2822 := fun _ => none }

/-- C5 counterexample: a payload the atom decoder accepts whose only entry
lacks a link is not retained — decoding panics on the link `unwrap`. -/
theorem C5_counterexample :
    read_feed linklessAtomDec "u" [] = ReadFeedResult.panicked unwrapNoneMsg := rfl

/-- C5 amended: an entry lacking any link/URL is not retained; for either
format, an accepted payload whose first entry has no link makes decoding
panic on the link `unwrap` instead of returning. -/
theorem C5_linkless_panics (dec : Decoders) (url : String) (content : Bytes) :
    (∀ f e rest, dec.atomRead content = some f → f.entries = e :: rest →
      e.links = [] → read_feed dec url content = ReadFeedResult.panicked unwrapNoneMsg) ∧
    (∀ c i rest, dec.atomRead content = none → dec.rssRead content = some c →
      c.items = i :: rest → i.link = none →
      read_feed dec url content = ReadFeedResult.panicked unwrapNoneMsg) := by
  constructor
  · intro f e rest hf he hl
    rw [(C7_adapter dec url content).1 f hf]
    unfold atomBranch
    rw [he]
    simp [panicCollect, atomEntryToFeedEntry, hl]
  · intro c i rest ha hc hi hl
    rw [(C7_adapter dec url content).2.1 ha c hc]
    unfold rssBranch
    rw [hi]
    simp [panicCollect, rssItemToFeedEntry, hl]

/-- C5 amended witness: the panic evaluated on the concrete linkless atom
entry. -/
theorem C5_linkless_panics_witness :
    read_feed linklessAtomDec "u" [] = ReadFeedResult.panicked unwrapNoneMsg :=
  (C5_linkless_panics linklessAtomDec "u" []).1
    { title := "f", entries := [{ title := "e", links := [], published := some 0 }] }
    { title := "e", links := [], published := some 0 } [] rfl rfl rfl

/-- A decoder set whose rss decoder yields one item with a link but no
`pub_date`, and whose date parser rejects everything. -/
def dateLessRssDec : Decoders :=
  { atomRead := fun _ => none,
    rssRead := fun _ =>
      some { title := "c", items := [{ title := none, link := some "l", pub_date := none }] },
    parseRfc2822 := fun _ => none }

/-- C10: decoding is not total on dates — an rss item whose `pub_date` is
absent, or whose `pub_date` still fails RFC 2822 parsing after the single
"UTC" → "+0000" replacement, and an atom entry (with a link) whose
`published` is absent, all make `read_feed` panic rather than drop the
entry or return a decode error. -/
theorem C10_date_panics (dec : Decoders) (url : String) (content : Bytes) :
    (∀ c i rest lnk, dec.atomRead content = none → dec.rssRead content = some c →
      c.items = i :: rest → i.link = some lnk → i.pub_date = none →
      read_feed dec url content =
        ReadFeedResult.panicked (pubDatePanicMsg c.title url none)) ∧
    (∀ c i rest lnk d, dec.atomRead content = none → dec.rssRead content = some c →
      c.items = i :: rest → i.link = some lnk → i.pub_date = some d →
      dec.parseRfc2822 (d.replace "UTC" "+0000") = none →
      read_feed dec url content =
        ReadFeedResult.panicked (pubDatePanicMsg c.title url (some d))) ∧
    (∀ f e rest lnk lrest, dec.atomRead content = some f → f.entries = e :: rest →
      e.links = lnk :: lrest → e.published = none →
      read_feed dec url content = ReadFeedResult.panicked unwrapNoneMsg) := by
  refine ⟨?_, ?_, ?_⟩
  · intro c i rest lnk ha hc hi hl hd
    rw [(C7_adapter dec url content).2.1 ha c hc]
    unfold rssBranch
    rw [hi]
    simp [panicCollect, rssItemToFeedEntry, hl, hd]
  · intro c i rest lnk d ha hc hi hl hd hp
    rw [(C7_adapter dec url content).2.1 ha c hc]
    unfold rssBranch
    rw [hi]
    simp [panicCollect, rssItemToFeedEntry, hl, hd, hp]
  · intro f e rest lnk lrest hf he hl hp
    rw [(C7_adapter dec url content).1 f hf]
    unfold atomBranch
    rw [he]
    simp [panicCollect, atomEntryToFeedEntry, hl, hp]

/-- C10 witness: the panic evaluated on a concrete rss item that has a
link but no `pub_date`. -/
theorem C10_date_panics_witness :
    read_feed dateLessRssDec "u" [] =
      ReadFeedResult.panicked (pubDatePanicMsg "c" "u" none) :=
  (C10_date_panics dateLessRssDec "u" []).1
    { title := "c", items := [{ title := none, link := some "l", pub_date := none }] }
    { title := none, link := some "l", pub_date := none } [] "l" rfl rfl rfl rfl rfl

/-- Sample feeds for concrete orchestration runs. -/
def feedA : Feed := { title := "a", entries := [] }

/-- A second sample feed. -/
def feedB : Feed := { title := "b", entries := [] }

/-- C2 counterexample: with one failed source between two successful ones,
`collect::<Result<Vec<Feed>>>()` does not return the successful feeds —
it returns the failure, which `?` in `main` then propagates, aborting the
run. -/
theorem C2_counterexample :
    collectResults [Except.ok feedA, Except.error "boom", Except.ok feedB] =
        Except.error "boom" ∧
    collectResults [Except.ok feedA, Except.error "boom", Except.ok feedB] ≠
        Except.ok [feedA, feedB] := by
  refine ⟨rfl, ?_⟩
  intro h
  exact Except.noConfusion h

/-- C2 amended: the orchestrator is strict, not lenient — when every
source succeeds it yields all feeds in order, and when any source fails
`collect` yields an error, which `main` propagates with `?`, aborting the
whole batch. -/
theorem C2_strict_collect (rs : List (Except String Feed)) :
    (∀ fs, rs = fs.map Except.ok → collectResults rs = Except.ok fs) ∧
    ((∃ e, Except.error e ∈ rs) → ∃ e, collectResults rs = Except.error e) := by
  constructor
  · intro fs hfs
    subst hfs
    induction fs with
    | nil => rfl
    | cons f fs ih => simp [collectResults, ih]
  · rintro ⟨e, he⟩
    induction rs with
    | nil => cases he
    | cons r rs ih =>
      cases r with
      | error e2 => exact ⟨e2, rfl⟩
      | ok f =>
        have hmem : Except.error e ∈ rs := by
          rcases List.mem_cons.mp he with h | h
          · exact absurd h (by simp)
          · exact h
        obtain ⟨e3, he3⟩ := ih hmem
        refine ⟨e3, ?_⟩
        simp [collectResults, he3]

/-- C2 amended witness: both halves evaluated concretely — an all-success
run collects both feeds, and a run with a failure yields that error. -/
theorem C2_strict_collect_witness :
    collectResults [Except.ok feedA, Except.ok feedB] = Except.ok [feedA, feedB] ∧
    ∃ e, collectResults [Except.ok feedA, Except.error "boom"] = Except.error e :=
  ⟨(C2_strict_collect [Except.ok feedA, Except.ok feedB]).1 [feedA, feedB] rfl,
   (C2_strict_collect [Except.ok feedA, Except.error "boom"]).2 ⟨"boom", by simp⟩⟩

/-- C8: after `markRead(x)` the entry is read within the session
(`isRead`), the link is appended to the persisted file so that
`get_read_entries` on the new file still reports it in a later session,
and `get_read_entries` on a missing file yields the empty set. -/
theorem C8_read_state (x : String) (s : ReadState) :
    isRead x (markRead x s) = true ∧
    x ∈ get_read_entries (markRead x s).file ∧
    get_read_entries none = [] := by
  refine ⟨?_, ?_, rfl⟩
  · simp [isRead, markRead]
  · simp [get_read_entries, markRead]

end Prss
